import Mathlib

/-!
Verification development for the measurement-decoding and JSON-serialization
core of the repository (`src/mapper/dvs_mapper/src/dvs.rs` and
`src/mapper/thin_edge_json/src/serialize.rs`).

The Rust code is shallowly embedded: strings are Lean `String`s, byte
sequences are `List ℕ` with each element a byte value, fallible functions
return `Except`.  Rust's `f64` values produced by `str::parse::<f64>` are
modelled by `F64Val`: the exact rational value of the numeric literal, or an
infinity / NaN marker.  The real parser rounds the literal to the nearest
IEEE-754 double; every concrete literal evaluated in this file denotes a
value that is exactly representable as a double, where the two agree.
-/

deriving instance DecidableEq for Except

/-- Model of Rust's `str::split(sep)` for a one-character separator, acting on
the character list of the string: splits at every occurrence of `sep`,
keeping empty pieces, and yields one more piece than there are occurrences
of `sep` (in particular `[[]]` on the empty string, as in Rust). -/
def splitOnChar (sep : Char) : List Char → List (List Char)
  | [] => [[]]
  | c :: cs =>
    if c = sep then [] :: splitOnChar sep cs
    else
      match splitOnChar sep cs with
      | [] => [[c]]
      | p :: ps => (c :: p) :: ps

/-- Numeric value of a decimal digit character. -/
def digitVal (c : Char) : ℕ := c.toNat - 48

/-- Value of a big-endian decimal digit string. -/
def digitsToNat (ds : List Char) : ℕ := ds.foldl (fun a c => 10 * a + digitVal c) 0

/-- Rust `f64` parse results: the exact rational value of a finite numeric
literal, or a (signed) infinity, or NaN.  `-nan` and `nan` are identified,
as IEEE NaN payload signs are not observable through the code under study. -/
inductive F64Val where
  | num (val : ℚ)
  | inf (negative : Bool)
  | nan
  deriving DecidableEq, Repr

/-- Exponent suffix of Rust's float grammar: the remaining characters must be
empty, or `e`/`E`, an optional sign, and a nonempty digit string. -/
def parseExpSuffix (mant : ℚ) : List Char → Option ℚ
  | [] => some mant
  | e :: r =>
    if e = 'e' ∨ e = 'E' then
      let se : ℤ × List Char :=
        match r with
        | '+' :: t => (1, t)
        | '-' :: t => (-1, t)
        | _ => (1, r)
      let ed := List.span Char.isDigit se.2
      if ed.1 = [] ∨ ed.2 ≠ [] then none
      else some (mant * (10 : ℚ) ^ (se.1 * (digitsToNat ed.1 : ℤ)))
    else none

/-- Finite-number part of Rust's float grammar (`Digits '.'? Digits? Exp?`
or `'.' Digits Exp?`), returning the exact rational value of the literal. -/
def parseNumber (cs : List Char) : Option ℚ :=
  let ip := List.span Char.isDigit cs
  match ip.2 with
  | '.' :: r2 =>
    let fp := List.span Char.isDigit r2
    if ip.1 = [] ∧ fp.1 = [] then none
    else
      parseExpSuffix
        ((digitsToNat ip.1 : ℚ) + (digitsToNat fp.1 : ℚ) / (10 : ℚ) ^ fp.1.length)
        fp.2
  | _ =>
    if ip.1 = [] then none
    else parseExpSuffix (digitsToNat ip.1 : ℚ) ip.2

/-- Model of Rust's `str::parse::<f64>()`: an optional sign followed by a
case-insensitive `inf`, `infinity` or `nan`, or a finite numeric literal.
Returns `none` exactly when the Rust parser returns `Err`; on success the
finite value is the exact rational denoted by the literal (the Rust parser
rounds it to the nearest double). -/
def parseF64 (s : List Char) : Option F64Val :=
  let nb : Bool × List Char :=
    match s with
    | '+' :: t => (false, t)
    | '-' :: t => (true, t)
    | _ => (false, s)
  let lower := nb.2.map Char.toLower
  if lower = "inf".data ∨ lower = "infinity".data then some (.inf nb.1)
  else if lower = "nan".data then some .nan
  else (parseNumber nb.2).map fun q => .num (if nb.1 then -q else q)

/-- Model of Rust's `std::str::from_utf8` on a byte list: decodes the UTF-8
byte sequence to the list of scalar values, rejecting truncated sequences,
stray or missing continuation bytes, overlong encodings, surrogate values
and values above `0x10FFFF`, exactly as the Rust validator does. -/
def utf8DecodeAux : List ℕ → Option (List ℕ)
  | [] => some []
  | b0 :: rest =>
    if b0 < 0x80 then
      (utf8DecodeAux rest).map (b0 :: ·)
    else if b0 < 0xC2 then none
    else if b0 < 0xE0 then
      match rest with
      | b1 :: r =>
        if 0x80 ≤ b1 ∧ b1 < 0xC0 then
          (utf8DecodeAux r).map (((b0 - 0xC0) * 0x40 + (b1 - 0x80)) :: ·)
        else none
      | [] => none
    else if b0 < 0xF0 then
      match rest with
      | b1 :: b2 :: r =>
        if (0x80 ≤ b1 ∧ b1 < 0xC0) ∧ (0x80 ≤ b2 ∧ b2 < 0xC0) then
          let cp := (b0 - 0xE0) * 0x1000 + (b1 - 0x80) * 0x40 + (b2 - 0x80)
          if cp < 0x800 ∨ (0xD800 ≤ cp ∧ cp < 0xE000) then none
          else (utf8DecodeAux r).map (cp :: ·)
        else none
      | _ => none
    else if b0 < 0xF5 then
      match rest with
      | b1 :: b2 :: b3 :: r =>
        if (0x80 ≤ b1 ∧ b1 < 0xC0) ∧ (0x80 ≤ b2 ∧ b2 < 0xC0) ∧ (0x80 ≤ b3 ∧ b3 < 0xC0) then
          let cp :=
            (b0 - 0xF0) * 0x40000 + (b1 - 0x80) * 0x1000 + (b2 - 0x80) * 0x40 + (b3 - 0x80)
          if cp < 0x10000 ∨ 0x110000 ≤ cp then none
          else (utf8DecodeAux r).map (cp :: ·)
        else none
      | _ => none
    else none

/-- UTF-8 decoding to a Lean `String` (the decoder above guarantees every
produced scalar value is a valid `Char`). -/
def from_utf8 (bytes : List ℕ) : Option String :=
  (utf8DecodeAux bytes).map fun cps => String.mk (cps.map Char.ofNat)

/-- Byte list of an ASCII string, used to build concrete payload inputs
(on ASCII text, UTF-8 encoding is the identity on byte values). -/
def asciiBytes (s : String) : List ℕ := s.data.map Char.toNat

/- ### dvs.rs: data model -/

/-- `DvsMessage` of dvs.rs (the borrowed string slices become owned
strings in the model). -/
structure DvsMessage where
  metric_group_key : String
  metric_key : String
  metric_value : F64Val
  deriving DecidableEq, Repr

/-- `DvsTopic` of dvs.rs. -/
structure DvsTopic where
  metric_group_key : String
  metric_key : String
  deriving DecidableEq, Repr

/-- `InvalidDvsTopicName` of dvs.rs (a unit error struct). -/
inductive InvalidDvsTopicName where
  | mk
  deriving DecidableEq, Repr

/-- `DvsPayload` of dvs.rs.  As in the source, only the metric value is
retained (the timestamp field of the struct is commented out there). -/
structure DvsPayload where
  metric_value : F64Val
  deriving DecidableEq, Repr

/-- `DvsPayloadError` of dvs.rs. -/
inductive DvsPayloadError where
  | NonUTF8MeasurementPayload (bytes : List ℕ)
  | InvalidMeasurementPayloadFormat (payload : String)
  | InvalidMeasurementTimestamp (field : String)
  | InvalidMeasurementValue (field : String)
  deriving DecidableEq, Repr

/-- `DvsError` of dvs.rs. -/
inductive DvsError where
  | InvalidMeasurementTopic (topic : String)
  | InvalidMeasurementPayload (topic : String) (err : DvsPayloadError)
  deriving DecidableEq, Repr

/-- The transport message boundary: `DvsMessage::parse_from` consumes the
topic name string and the trimmed payload bytes (`payload_trimmed()` — the
transport collaborator strips the trailing NUL before the bytes reach the
parser, so the model takes the already-trimmed bytes). -/
structure Message where
  topic : String
  payload_trimmed : List ℕ

/-- `DvsTopic::from_str` (dvs.rs lines 67–82): split the topic name on `/`;
four calls to `next()` must succeed and a fifth must yield `None`, i.e. the
split must have exactly four pieces; the third and fourth become the group
key and the metric key verbatim. -/
def DvsTopic.from_str (topic_name : String) : Except InvalidDvsTopicName DvsTopic :=
  match splitOnChar '/' topic_name.data with
  | [_dvs, _hostname, metric_group_key, metric_key] =>
    .ok ⟨String.mk metric_group_key, String.mk metric_key⟩
  | _ => .error .mk

/-- `DvsPayload::parse_from` (dvs.rs lines 106–137), transcribed with the
timestamp-handling block absent, exactly as it is commented out in the
source: decode UTF-8, split on `:`, parse the FIRST piece as the metric
value, and fail with the payload-format error if any further piece remains.
The empty-split case mirrors the `ok_or_else` on the first `next()` (it is
unreachable, since splitting always yields at least one piece). -/
def DvsPayload.parse_from (payload : List ℕ) : Except DvsPayloadError DvsPayload :=
  match from_utf8 payload with
  | none => .error (.NonUTF8MeasurementPayload payload)
  | some text =>
    match splitOnChar ':' text.data with
    | [] => .error (.InvalidMeasurementPayloadFormat text)
    | metric_value :: rest =>
      match parseF64 metric_value with
      | none => .error (.InvalidMeasurementValue (String.mk metric_value))
      | some v =>
        match rest with
        | [] => .ok ⟨v⟩
        | _ :: _ => .error (.InvalidMeasurementPayloadFormat text)

/-- `DvsMessage::parse_from` (dvs.rs lines 36–54): parse the topic first,
wrapping failure as `InvalidMeasurementTopic` carrying the topic string;
then parse the trimmed payload, wrapping failure as
`InvalidMeasurementPayload` carrying the topic string and the payload
error; on success combine the topic keys with the payload value. -/
def DvsMessage.parse_from (mqtt_message : Message) : Except DvsError DvsMessage :=
  let topic := mqtt_message.topic
  match DvsTopic.from_str topic with
  | .error _ => .error (.InvalidMeasurementTopic topic)
  | .ok dvs_topic =>
    match DvsPayload.parse_from mqtt_message.payload_trimmed with
    | .error err => .error (.InvalidMeasurementPayload topic err)
    | .ok dvs_payload =>
      .ok ⟨dvs_topic.metric_group_key, dvs_topic.metric_key, dvs_payload.metric_value⟩

/- ### Helper lemmas about splitOnChar -/

/-- Splitting always yields at least one piece, as Rust's `split` does. -/
theorem splitOnChar_ne_nil (sep : Char) (l : List Char) : splitOnChar sep l ≠ [] := by
  cases l with
  | nil => simp [splitOnChar]
  | cons c cs =>
    by_cases hc : c = sep
    · simp [splitOnChar, hc]
    · simp only [splitOnChar, if_neg hc]
      cases splitOnChar sep cs <;> simp

/-- Splitting yields one more piece than there are separator occurrences. -/
theorem splitOnChar_length (sep : Char) (l : List Char) :
    (splitOnChar sep l).length = l.count sep + 1 := by
  induction l with
  | nil => rfl
  | cons c cs ih =>
    by_cases hc : c = sep
    · simpa [splitOnChar, hc, List.count_cons] using ih
    · rcases h : splitOnChar sep cs with _ | ⟨p, ps⟩
      · exact absurd h (splitOnChar_ne_nil sep cs)
      · rw [h] at ih
        simp only [splitOnChar, if_neg hc, h, List.length_cons, List.count_cons,
          beq_iff_eq] at ih ⊢
        omega

/- ### Claims about dvs.rs -/

/-- Claim C1 (code evaluation): contrary to the spec and to the crate's own
unit tests, the payload parser as written (timestamp handling commented out)
REJECTS the two-field payload `123456789:32.5` with the payload-format
error, ACCEPTS the colon-free payload `123456789` with metric value
`123456789`, and rejects `12:34` even though both fields are numeric. -/
theorem payload_parse_from_field_count_eval :
    DvsPayload.parse_from (asciiBytes "123456789:32.5")
        = .error (.InvalidMeasurementPayloadFormat "123456789:32.5")
    ∧ DvsPayload.parse_from (asciiBytes "123456789") = .ok ⟨.num 123456789⟩
    ∧ DvsPayload.parse_from (asciiBytes "12:34")
        = .error (.InvalidMeasurementPayloadFormat "12:34") := by
  refine ⟨by decide, by decide, by decide⟩

/-- Claim C2 (code evaluation): decoding topic `dvs/localhost/temperature/value`
with payload `123456789:32.5` does NOT yield the measurement the spec's
Scenario A (and the crate's `dvs_message_parsing` unit test) requires; the
payload parser rejects the two-field payload, so the decoder returns the
wrapped payload-format error. -/
theorem message_parse_from_scenario_a_eval :
    DvsMessage.parse_from ⟨"dvs/localhost/temperature/value", asciiBytes "123456789:32.5"⟩
      = .error (.InvalidMeasurementPayload "dvs/localhost/temperature/value"
          (.InvalidMeasurementPayloadFormat "123456789:32.5")) := by
  decide

/-- Claim C6 (code evaluation): payload `abc:98.6` fails with
`InvalidMeasurementValue "abc"`, not with the timestamp-field error
`InvalidMeasurementTimestamp "abc"` that the spec's Scenario D and the
crate's `invalid_dvs_metric_timestamp` unit test require: the commented-out
timestamp step means the first field is consumed as the value candidate. -/
theorem payload_parse_from_scenario_d_eval :
    DvsPayload.parse_from (asciiBytes "abc:98.6")
      = .error (.InvalidMeasurementValue "abc") := by
  decide

/-- Claim C3: the topic parser succeeds iff the topic splits on `/` into
exactly four segments, and on success the group key and metric key are the
third and fourth segments verbatim. -/
theorem topic_from_str_four_segments (t : String) :
    ((∃ r, DvsTopic.from_str t = .ok r) ↔ (splitOnChar '/' t.data).length = 4)
    ∧ ∀ r, DvsTopic.from_str t = .ok r →
        r.metric_group_key = String.mk ((splitOnChar '/' t.data).getD 2 [])
        ∧ r.metric_key = String.mk ((splitOnChar '/' t.data).getD 3 []) := by
  rcases h : splitOnChar '/' t.data with _ | ⟨a, _ | ⟨b, _ | ⟨c, _ | ⟨d, _ | ⟨e, l⟩⟩⟩⟩⟩ <;>
    simp [DvsTopic.from_str, h]

/-- Witness for C3 at the topic of Scenario A. -/
theorem topic_from_str_four_segments_witness :
    (∃ r, DvsTopic.from_str "dvs/localhost/temperature/value" = .ok r)
    ∧ (DvsTopic.mk "temperature" "value").metric_group_key
        = String.mk ((splitOnChar '/' "dvs/localhost/temperature/value".data).getD 2 []) := by
  exact ⟨(topic_from_str_four_segments "dvs/localhost/temperature/value").1.mpr (by decide),
    ((topic_from_str_four_segments "dvs/localhost/temperature/value").2
      ⟨"temperature", "value"⟩ (by decide)).1⟩

/-- Claim C10: the topic parser accepts empty segments: every topic string
with exactly three `/` characters parses successfully, and in particular
`///` parses with both keys equal to the empty string. -/
theorem topic_from_str_accepts_empty_segments :
    (∀ t : String, t.data.count '/' = 3 → ∃ r, DvsTopic.from_str t = .ok r)
    ∧ DvsTopic.from_str "///" = .ok ⟨"", ""⟩ := by
  constructor
  · intro t h
    have hlen : (splitOnChar '/' t.data).length = 4 := by
      rw [splitOnChar_length, h]
    exact (topic_from_str_four_segments t).1.mpr hlen
  · decide

/-- Witness for C10 at the all-empty topic. -/
theorem topic_from_str_accepts_empty_segments_witness :
    ∃ r, DvsTopic.from_str "///" = .ok r :=
  topic_from_str_accepts_empty_segments.1 "///" (by decide)

/-- Claim C7: the decoder parses the topic first — an invalid topic yields
`InvalidMeasurementTopic` carrying the raw topic string, whatever the
payload holds (the payload is never consulted); a valid topic with a failing
payload yields `InvalidMeasurementPayload` carrying the original topic
string and the inner payload error. -/
theorem message_parse_from_error_wrapping :
    (∀ m : Message, (∃ e, DvsTopic.from_str m.topic = .error e) →
        DvsMessage.parse_from m = .error (.InvalidMeasurementTopic m.topic))
    ∧ ∀ (m : Message) (e : DvsPayloadError),
        (∃ r, DvsTopic.from_str m.topic = .ok r) →
        DvsPayload.parse_from m.payload_trimmed = .error e →
        DvsMessage.parse_from m = .error (.InvalidMeasurementPayload m.topic e) := by
  constructor
  · rintro m ⟨e, he⟩
    simp [DvsMessage.parse_from, he]
  · rintro m e ⟨r, hr⟩ hp
    simp [DvsMessage.parse_from, hr, hp]

/-- Witness for C7: the two wrapping behaviours at concrete inputs. -/
theorem message_parse_from_error_wrapping_witness :
    DvsMessage.parse_from ⟨"dvs/less/levels", asciiBytes "1:2"⟩
        = .error (.InvalidMeasurementTopic "dvs/less/levels")
    ∧ DvsMessage.parse_from ⟨"dvs/host/group/key", asciiBytes "123456789:32.5"⟩
        = .error (.InvalidMeasurementPayload "dvs/host/group/key"
            (.InvalidMeasurementPayloadFormat "123456789:32.5")) := by
  exact ⟨message_parse_from_error_wrapping.1 ⟨"dvs/less/levels", asciiBytes "1:2"⟩
      ⟨.mk, by decide⟩,
    message_parse_from_error_wrapping.2 ⟨"dvs/host/group/key", asciiBytes "123456789:32.5"⟩
      (.InvalidMeasurementPayloadFormat "123456789:32.5") ⟨⟨"group", "key"⟩, by decide⟩
      (by decide)⟩

/- ### serialize.rs: data model -/

/-- Modelled from the spec: a `chrono::DateTime<FixedOffset>` value, which the
serializer observes only through its RFC 3339 rendering (spec 4.5: the
timestamp is written as an RFC 3339 timestamp string); the chrono rendering
itself is an external library boundary, so the model carries the rendered
string directly. -/
structure DateTimeFixedOffset where
  rfc3339 : String
  deriving DecidableEq, Repr

/-- The `to_rfc3339` observation of a modelled `DateTime<FixedOffset>`. -/
def DateTimeFixedOffset.to_rfc3339 (t : DateTimeFixedOffset) : String := t.rfc3339

/-- JSON string escaping of one character, for the writer boundary model:
quote and backslash get a backslash escape, other control characters a
`\u00XX` escape, everything else passes through. -/
def escapeJsonChar (c : Char) : List Char :=
  if c = '"' then ['\\', '"']
  else if c = '\\' then ['\\', '\\']
  else if c.toNat < 0x20 then
    ['\\', 'u', '0', '0',
      (Nat.digitChar (c.toNat / 16)), (Nat.digitChar (c.toNat % 16))]
  else [c]

/-- JSON string escaping for the writer boundary model. -/
def escapeJson (cs : List Char) : List Char := cs.flatMap escapeJsonChar

/-- Modelled from the spec: the numeric-formatting primitive of the JSON
writer boundary (spec 4.5 leaves its exact text an open question; no claim
below depends on it). -/
def formatF64 : F64Val → List Char
  | .num q => (toString q).data
  | .inf negative => if negative then "-inf".data else "inf".data
  | .nan => "nan".data

/-- Modelled from the spec: the `json_writer::JsonWriter` boundary (spec 6:
object open/close, key write with escaping, string write, floating-point
write and separator write, accumulating a byte/text buffer).  `buf` is the
accumulated text as a character list; `keys` additionally records, in
order, every key passed to the key-write primitive — an observation of the
writer's call trace used to state document-shape properties. -/
structure JsonWriter where
  buf : List Char
  keys : List String
  deriving DecidableEq, Repr

/-- `JsonWriter::with_capacity`: an empty buffer (capacity is irrelevant to
the accumulated text). -/
def JsonWriter.with_capacity (_capa : ℕ) : JsonWriter := ⟨[], []⟩

/-- Writer primitive: append an opening brace. -/
def JsonWriter.write_open_obj (w : JsonWriter) : JsonWriter :=
  { w with buf := w.buf ++ "\x7b".data }

/-- Writer primitive: append a closing brace. -/
def JsonWriter.write_close_obj (w : JsonWriter) : JsonWriter :=
  { w with buf := w.buf ++ "\x7d".data }

/-- Writer primitive: append a comma separator. -/
def JsonWriter.write_separator (w : JsonWriter) : JsonWriter :=
  { w with buf := w.buf ++ ",".data }

/-- Writer primitive: append an escaped, quoted key and a colon, recording
the key in the call-trace observation. -/
def JsonWriter.write_key (w : JsonWriter) (key : String) : JsonWriter :=
  { buf := w.buf ++ "\"".data ++ escapeJson key.data ++ "\":".data,
    keys := w.keys ++ [key] }

/-- Writer primitive: append an escaped, quoted string value. -/
def JsonWriter.write_str (w : JsonWriter) (s : String) : JsonWriter :=
  { w with buf := w.buf ++ "\"".data ++ escapeJson s.data ++ "\"".data }

/-- Writer primitive: append a formatted floating-point value. -/
def JsonWriter.write_f64 (w : JsonWriter) (value : F64Val) : JsonWriter :=
  { w with buf := w.buf ++ formatF64 value }

/-- `JsonWriter::into_string`: the accumulated buffer as a string. -/
def JsonWriter.into_string (w : JsonWriter) : String := String.mk w.buf

/-- `MeasurementStreamError` of serialize.rs. -/
inductive MeasurementStreamError where
  | UnexpectedTimestamp
  | UnexpectedEndOfData
  | UnexpectedEndOfGroup
  | UnexpectedStartOfGroup
  deriving DecidableEq, Repr

/-- `ThinEdgeJsonSerializer` of serialize.rs.  The error type of the fallible
operations is collapsed to `MeasurementStreamError`: the source wraps it
into `ThinEdgeJsonSerializationError::MeasurementCollectorError`, and the
other variants of that enum (format, UTF-8 and writer errors) cannot arise
in the model because the modelled writer boundary is infallible (as is the
real `JsonWriter` writing into a growable buffer). -/
structure ThinEdgeJsonSerializer where
  json : JsonWriter
  is_within_group : Bool
  needs_separator : Bool
  default_timestamp : Option DateTimeFixedOffset
  timestamp_present : Bool
  deriving DecidableEq, Repr

/-- `ThinEdgeJsonSerializer::new_with_timestamp` (serialize.rs lines 49–61). -/
def ThinEdgeJsonSerializer.new_with_timestamp
    (default_timestamp : Option DateTimeFixedOffset) : ThinEdgeJsonSerializer :=
  { json := (JsonWriter.with_capacity 1024).write_open_obj,
    is_within_group := false,
    needs_separator := false,
    default_timestamp := default_timestamp,
    timestamp_present := false }

/-- `ThinEdgeJsonSerializer::new`. -/
def ThinEdgeJsonSerializer.new : ThinEdgeJsonSerializer :=
  ThinEdgeJsonSerializer.new_with_timestamp none

/-- `timestamp` of the `GroupedMeasurementVisitor` impl (serialize.rs lines
97–111).  A `&mut self` method is embedded as a function returning the
result together with the post-call state; an early `return Err` yields the
unmodified receiver. -/
def ThinEdgeJsonSerializer.timestamp (self : ThinEdgeJsonSerializer)
    (ts : DateTimeFixedOffset) :
    Except MeasurementStreamError Unit × ThinEdgeJsonSerializer :=
  if self.is_within_group then (.error .UnexpectedTimestamp, self)
  else
    let json := if self.needs_separator then self.json.write_separator else self.json
    let json := (json.write_key "time").write_str ts.to_rfc3339
    (.ok (), { self with json := json, needs_separator := true, timestamp_present := true })

/-- `measurement` of the visitor impl (serialize.rs lines 113–121): legal in
either state, never fails. -/
def ThinEdgeJsonSerializer.measurement (self : ThinEdgeJsonSerializer)
    (name : String) (value : F64Val) :
    Except MeasurementStreamError Unit × ThinEdgeJsonSerializer :=
  let json := if self.needs_separator then self.json.write_separator else self.json
  let json := (json.write_key name).write_f64 value
  (.ok (), { self with json := json, needs_separator := true })

/-- `start_group` of the visitor impl (serialize.rs lines 123–136). -/
def ThinEdgeJsonSerializer.start_group (self : ThinEdgeJsonSerializer)
    (group : String) :
    Except MeasurementStreamError Unit × ThinEdgeJsonSerializer :=
  if self.is_within_group then (.error .UnexpectedStartOfGroup, self)
  else
    let json := if self.needs_separator then self.json.write_separator else self.json
    let json := (json.write_key group).write_open_obj
    (.ok (), { self with json := json, needs_separator := false, is_within_group := true })

/-- `end_group` of the visitor impl (serialize.rs lines 138–147). -/
def ThinEdgeJsonSerializer.end_group (self : ThinEdgeJsonSerializer) :
    Except MeasurementStreamError Unit × ThinEdgeJsonSerializer :=
  if !self.is_within_group then (.error .UnexpectedEndOfGroup, self)
  else
    (.ok (), { self with
                 json := self.json.write_close_obj,
                 needs_separator := true, is_within_group := false })

/-- The private `end` method (serialize.rs lines 63–76), named `end'` because
`end` is reserved in Lean: refuse to finalize within a group; synthesize the
default timestamp when none was recorded and one was configured (the `?` on
that call is modelled by propagating its — here impossible — error); close
the object. -/
def ThinEdgeJsonSerializer.end' (self : ThinEdgeJsonSerializer) :
    Except MeasurementStreamError Unit × ThinEdgeJsonSerializer :=
  if self.is_within_group then (.error .UnexpectedEndOfData, self)
  else
    let step : Except MeasurementStreamError Unit × ThinEdgeJsonSerializer :=
      if !self.timestamp_present then
        match self.default_timestamp with
        | some default_timestamp => self.timestamp default_timestamp
        | none => (.ok (), self)
      else (.ok (), self)
    match step with
    | (.error e, s) => (.error e, s)
    | (.ok _, s) => (.ok (), { s with json := s.json.write_close_obj })

/-- `into_string` (serialize.rs lines 82–85): run `end`, then yield the
accumulated buffer as a string. -/
def ThinEdgeJsonSerializer.into_string (self : ThinEdgeJsonSerializer) :
    Except MeasurementStreamError String × ThinEdgeJsonSerializer :=
  match self.end' with
  | (.error e, s) => (.error e, s)
  | (.ok _, s) => (.ok s.json.into_string, s)

/-- UTF-8 encoding of one scalar value (inverse of the decoder above). -/
def utf8EncodeChar (c : ℕ) : List ℕ :=
  if c < 0x80 then [c]
  else if c < 0x800 then [0xC0 + c / 0x40, 0x80 + c % 0x40]
  else if c < 0x10000 then
    [0xE0 + c / 0x1000, 0x80 + (c / 0x40) % 0x40, 0x80 + c % 0x40]
  else
    [0xF0 + c / 0x40000, 0x80 + (c / 0x1000) % 0x40, 0x80 + (c / 0x40) % 0x40,
      0x80 + c % 0x40]

/-- UTF-8 encoding of a string, modelling Rust's `String::into_bytes`. -/
def utf8Encode (s : String) : List ℕ := s.data.flatMap fun ch => utf8EncodeChar ch.toNat

/-- `bytes` (serialize.rs lines 78–80): consume the serializer, finalize and
return the document bytes. -/
def ThinEdgeJsonSerializer.bytes (self : ThinEdgeJsonSerializer) :
    Except MeasurementStreamError (List ℕ) :=
  (self.into_string).1.map utf8Encode

/- ### Operation sequences driving the serializer -/

/-- One operation of the `GroupedMeasurementVisitor` protocol. -/
inductive SerOp where
  | timestamp (ts : DateTimeFixedOffset)
  | measurement (name : String) (value : F64Val)
  | start_group (group : String)
  | end_group
  deriving DecidableEq, Repr

/-- Apply one protocol operation to the serializer. -/
def applySerOp (s : ThinEdgeJsonSerializer) : SerOp →
    Except MeasurementStreamError Unit × ThinEdgeJsonSerializer
  | .timestamp ts => s.timestamp ts
  | .measurement name value => s.measurement name value
  | .start_group group => s.start_group group
  | .end_group => s.end_group

/-- Drive the serializer through a sequence of operations, stopping at the
first error; `.ok` means every operation returned `Ok`. -/
def runSerOps (s : ThinEdgeJsonSerializer) :
    List SerOp → Except MeasurementStreamError ThinEdgeJsonSerializer
  | [] => .ok s
  | op :: rest =>
    match applySerOp s op with
    | (.ok _, s') => runSerOps s' rest
    | (.error e, _) => .error e

/- ### Claims about serialize.rs -/

/-- Claim C4: from every state reached by a sequence of legal (all-`Ok`)
operations, the state machine rejects each illegal next step with the
specified error: with a group open, `timestamp` fails with
`UnexpectedTimestamp`, `start_group` with `UnexpectedStartOfGroup`, and
finalizing (`into_string` or `bytes`) with `UnexpectedEndOfData`; with no
group open, `end_group` fails with `UnexpectedEndOfGroup`. -/
theorem serializer_state_machine_rejections
    (d : Option DateTimeFixedOffset) (ops1 ops2 : List SerOp)
    (s1 s2 : ThinEdgeJsonSerializer)
    (h1 : runSerOps (ThinEdgeJsonSerializer.new_with_timestamp d) ops1 = .ok s1)
    (hg : s1.is_within_group = true)
    (h2 : runSerOps (ThinEdgeJsonSerializer.new_with_timestamp d) ops2 = .ok s2)
    (ht : s2.is_within_group = false) :
    (∀ ts, (s1.timestamp ts).1 = .error .UnexpectedTimestamp)
    ∧ (∀ g, (s1.start_group g).1 = .error .UnexpectedStartOfGroup)
    ∧ (s2.end_group).1 = .error .UnexpectedEndOfGroup
    ∧ (s1.into_string).1 = .error .UnexpectedEndOfData
    ∧ s1.bytes = .error .UnexpectedEndOfData := by
  refine ⟨fun ts => ?_, fun g => ?_, ?_, ?_, ?_⟩
  · simp [ThinEdgeJsonSerializer.timestamp, hg]
  · simp [ThinEdgeJsonSerializer.start_group, hg]
  · simp [ThinEdgeJsonSerializer.end_group, ht]
  · simp [ThinEdgeJsonSerializer.into_string, ThinEdgeJsonSerializer.end', hg]
  · simp [ThinEdgeJsonSerializer.bytes, ThinEdgeJsonSerializer.into_string,
      ThinEdgeJsonSerializer.end', hg, Except.map]

/-- Witness for C4: the states after `start_group "location"` and after no
operations, with each rejection evaluated. -/
theorem serializer_state_machine_rejections_witness :
    ((ThinEdgeJsonSerializer.new.start_group "location").2.timestamp
        ⟨"2021-06-15T17:01:00+02:00"⟩).1 = .error .UnexpectedTimestamp
    ∧ ((ThinEdgeJsonSerializer.new.start_group "location").2.start_group "alti").1
        = .error .UnexpectedStartOfGroup
    ∧ (ThinEdgeJsonSerializer.new.end_group).1 = .error .UnexpectedEndOfGroup
    ∧ ((ThinEdgeJsonSerializer.new.start_group "location").2.into_string).1
        = .error .UnexpectedEndOfData
    ∧ (ThinEdgeJsonSerializer.new.start_group "location").2.bytes
        = .error .UnexpectedEndOfData := by
  have h := serializer_state_machine_rejections none [.start_group "location"] []
    (ThinEdgeJsonSerializer.new.start_group "location").2 ThinEdgeJsonSerializer.new
    (by decide) (by decide) (by decide) (by decide)
  exact ⟨h.1 ⟨"2021-06-15T17:01:00+02:00"⟩, h.2.1 "alti", h.2.2.1, h.2.2.2.1, h.2.2.2.2⟩

/-- Claim C9: every operation that fails with a state-machine error returns
the serializer exactly as it was — the buffer, the group flag, the
separator flag, the timestamp flag and the configured default all keep
their prior values, because every state check precedes every write. -/
theorem serializer_errors_leave_state_unchanged (s : ThinEdgeJsonSerializer) :
    (∀ ts e, (s.timestamp ts).1 = .error e → (s.timestamp ts).2 = s)
    ∧ (∀ g e, (s.start_group g).1 = .error e → (s.start_group g).2 = s)
    ∧ (∀ e, (s.end_group).1 = .error e → (s.end_group).2 = s)
    ∧ (∀ e, (s.end').1 = .error e → (s.end').2 = s)
    ∧ (∀ e, (s.into_string).1 = .error e → (s.into_string).2 = s) := by
  rcases hw : s.is_within_group with _ | _
  · have hend : (s.end').1 = .ok () ∨ (s.end').2 = s := by
      rcases hp : s.timestamp_present with _ | _
      · rcases hd : s.default_timestamp with _ | d
        · left
          simp [ThinEdgeJsonSerializer.end', hw, hp, hd]
        · left
          simp [ThinEdgeJsonSerializer.end', ThinEdgeJsonSerializer.timestamp, hw, hp, hd]
      · left
        simp [ThinEdgeJsonSerializer.end', hw, hp]
    refine ⟨?_, ?_, ?_, ?_, ?_⟩
    · intro ts e h
      simp [ThinEdgeJsonSerializer.timestamp, hw] at h
    · intro g e h
      simp [ThinEdgeJsonSerializer.start_group, hw] at h
    · intro e h
      simp [ThinEdgeJsonSerializer.end_group, hw]
    · intro e h
      rcases hend with hok | hs
      · rw [hok] at h
        exact absurd h (by simp)
      · exact hs
    · intro e h
      rcases h' : s.end' with ⟨r, s2⟩
      rcases hend with hok | hs
      · rw [h'] at hok
        simp at hok
        simp [ThinEdgeJsonSerializer.into_string, h', hok] at h
      · simp [ThinEdgeJsonSerializer.into_string, h'] at h ⊢
        rcases r with e' | u
        · rw [h'] at hs
          simpa using hs
        · simp at h
  · refine ⟨?_, ?_, ?_, ?_, ?_⟩
    · intro ts e h
      simp [ThinEdgeJsonSerializer.timestamp, hw]
    · intro g e h
      simp [ThinEdgeJsonSerializer.start_group, hw]
    · intro e h
      simp [ThinEdgeJsonSerializer.end_group, hw] at h
    · intro e h
      simp [ThinEdgeJsonSerializer.end', hw]
    · intro e h
      simp [ThinEdgeJsonSerializer.into_string, ThinEdgeJsonSerializer.end', hw]

/-- Witness for C9: a failing `timestamp` inside a group and a failing
`end_group` outside a group leave their concrete receivers unchanged. -/
theorem serializer_errors_leave_state_unchanged_witness :
    (((ThinEdgeJsonSerializer.new.start_group "location").2.timestamp ⟨"T"⟩).2
        = (ThinEdgeJsonSerializer.new.start_group "location").2)
    ∧ (ThinEdgeJsonSerializer.new.end_group).2 = ThinEdgeJsonSerializer.new := by
  exact ⟨(serializer_errors_leave_state_unchanged
      (ThinEdgeJsonSerializer.new.start_group "location").2).1 ⟨"T"⟩
      .UnexpectedTimestamp (by decide),
    (serializer_errors_leave_state_unchanged ThinEdgeJsonSerializer.new).2.2.1
      .UnexpectedEndOfGroup (by decide)⟩

/-- Claim C8: finalizing from the top level with no timestamp recorded
synthesizes the configured default timestamp entry before closing, and
leaves the entry absent when no default was configured; in particular a
serializer driven with no operations finalizes to exactly the empty object,
or to exactly a single time entry holding the default's RFC 3339 text. -/
theorem serializer_finalize_default_timestamp :
    (∀ (s : ThinEdgeJsonSerializer) (d : DateTimeFixedOffset),
        s.is_within_group = false → s.timestamp_present = false →
        s.default_timestamp = some d →
        (s.end').1 = .ok () ∧ (s.end').2.json.keys = s.json.keys ++ ["time"])
    ∧ (∀ s : ThinEdgeJsonSerializer,
        s.is_within_group = false → s.timestamp_present = false →
        s.default_timestamp = none →
        (s.end').1 = .ok () ∧ (s.end').2.json.keys = s.json.keys)
    ∧ (ThinEdgeJsonSerializer.new.into_string).1 = .ok "\x7b\x7d"
    ∧ ∀ d : DateTimeFixedOffset,
        ((ThinEdgeJsonSerializer.new_with_timestamp (some d)).into_string).1
          = .ok (String.mk ("\x7b\"time\":\"".data ++ escapeJson d.to_rfc3339.data
              ++ "\"\x7d".data)) := by
  refine ⟨?_, ?_, by decide, ?_⟩
  · intro s d hw hp hd
    rcases hn : s.needs_separator with _ | _ <;>
      simp [ThinEdgeJsonSerializer.end', ThinEdgeJsonSerializer.timestamp, hw, hp, hd, hn,
        JsonWriter.write_close_obj, JsonWriter.write_key, JsonWriter.write_str,
        JsonWriter.write_separator]
  · intro s hw hp hd
    simp [ThinEdgeJsonSerializer.end', hw, hp, hd, JsonWriter.write_close_obj]
  · intro d
    simp [ThinEdgeJsonSerializer.into_string, ThinEdgeJsonSerializer.end',
      ThinEdgeJsonSerializer.new_with_timestamp, ThinEdgeJsonSerializer.timestamp,
      JsonWriter.with_capacity, JsonWriter.write_open_obj, JsonWriter.write_close_obj,
      JsonWriter.write_key, JsonWriter.write_str, JsonWriter.into_string,
      DateTimeFixedOffset.to_rfc3339,
      show escapeJson "time".data = "time".data from by decide]

/-- Witness for C8 at a concrete default timestamp. -/
theorem serializer_finalize_default_timestamp_witness :
    ((ThinEdgeJsonSerializer.new_with_timestamp
        (some ⟨"2021-06-15T17:01:00+02:00"⟩)).end').1 = .ok ()
    ∧ ((ThinEdgeJsonSerializer.new_with_timestamp
        (some ⟨"2021-06-15T17:01:00+02:00"⟩)).end').2.json.keys
      = (ThinEdgeJsonSerializer.new_with_timestamp
          (some ⟨"2021-06-15T17:01:00+02:00"⟩)).json.keys ++ ["time"]
    ∧ ((ThinEdgeJsonSerializer.new_with_timestamp
        (some ⟨"2021-06-15T17:01:00+02:00"⟩)).into_string).1
      = .ok "\x7b\"time\":\"2021-06-15T17:01:00+02:00\"\x7d" := by
  have h1 := serializer_finalize_default_timestamp.1
    (ThinEdgeJsonSerializer.new_with_timestamp (some ⟨"2021-06-15T17:01:00+02:00"⟩))
    ⟨"2021-06-15T17:01:00+02:00"⟩ rfl rfl rfl
  have h4 := serializer_finalize_default_timestamp.2.2.2 ⟨"2021-06-15T17:01:00+02:00"⟩
  exact ⟨h1.1, h1.2, by rw [h4]; decide⟩

/- ### The key trace of a run of serializer operations -/

/-- The keys the writer records during one successful operation: `timestamp`
writes the `time` key, `measurement` and `start_group` write their name,
`end_group` writes no key. -/
def opKeys : SerOp → List String
  | .timestamp _ => ["time"]
  | .measurement name _ => [name]
  | .start_group group => [group]
  | .end_group => []

/-- Whether an operation is a `timestamp` call. -/
def isTimestampOp : SerOp → Bool
  | .timestamp _ => true
  | _ => false

/-- Whether an operation passes the name `time` to the key writer other than
through the timestamp mechanism. -/
def usesTimeName : SerOp → Bool
  | .measurement name _ => name == "time"
  | .start_group group => group == "time"
  | _ => false

/-- A successful operation appends exactly its `opKeys` to the writer's key
trace, and sets the timestamp flag exactly when it is a `timestamp` call. -/
theorem applySerOp_ok_observations (s : ThinEdgeJsonSerializer) (op : SerOp)
    (h : (applySerOp s op).1 = .ok ()) :
    (applySerOp s op).2.json.keys = s.json.keys ++ opKeys op
    ∧ (applySerOp s op).2.timestamp_present
        = (s.timestamp_present || isTimestampOp op) := by
  cases op with
  | timestamp ts =>
    rcases hw : s.is_within_group with _ | _
    · rcases hn : s.needs_separator with _ | _ <;>
        simp [applySerOp, ThinEdgeJsonSerializer.timestamp, hw, hn, opKeys, isTimestampOp,
          JsonWriter.write_separator, JsonWriter.write_key, JsonWriter.write_str]
    · simp [applySerOp, ThinEdgeJsonSerializer.timestamp, hw] at h
  | measurement name value =>
    rcases hn : s.needs_separator with _ | _ <;>
      simp [applySerOp, ThinEdgeJsonSerializer.measurement, hn, opKeys, isTimestampOp,
        JsonWriter.write_separator, JsonWriter.write_key, JsonWriter.write_f64]
  | start_group group =>
    rcases hw : s.is_within_group with _ | _
    · rcases hn : s.needs_separator with _ | _ <;>
        simp [applySerOp, ThinEdgeJsonSerializer.start_group, hw, hn, opKeys, isTimestampOp,
          JsonWriter.write_separator, JsonWriter.write_key, JsonWriter.write_open_obj]
    · simp [applySerOp, ThinEdgeJsonSerializer.start_group, hw] at h
  | end_group =>
    rcases hw : s.is_within_group with _ | _
    · simp [applySerOp, ThinEdgeJsonSerializer.end_group, hw] at h
    · simp [applySerOp, ThinEdgeJsonSerializer.end_group, hw, opKeys, isTimestampOp,
        JsonWriter.write_close_obj]

/-- Over a whole successful run, the key trace grows by the concatenation of
the per-operation keys, and the timestamp flag records whether any
`timestamp` call occurred. -/
theorem runSerOps_observations (ops : List SerOp) :
    ∀ s s', runSerOps s ops = .ok s' →
      s'.json.keys = s.json.keys ++ ops.flatMap opKeys
      ∧ s'.timestamp_present = (s.timestamp_present || ops.any isTimestampOp) := by
  induction ops with
  | nil =>
    intro s s' h
    simp [runSerOps] at h
    subst h
    simp
  | cons op rest ih =>
    intro s s' h
    rcases happ : applySerOp s op with ⟨r, smid⟩
    rcases r with e | u
    · simp [runSerOps, happ] at h
    · cases u
      simp only [runSerOps, happ] at h
      have hobs := applySerOp_ok_observations s op (by rw [happ])
      rw [happ] at hobs
      have hrest := ih smid s' h
      refine ⟨?_, ?_⟩
      · rw [hrest.1, hobs.1]
        simp [List.append_assoc]
      · rw [hrest.2, hobs.2]
        simp [Bool.or_assoc]

/-- A successful run of a concatenation passes through a successful run of
the first part. -/
theorem runSerOps_append_ok (l r : List SerOp) :
    ∀ s s'', runSerOps s (l ++ r) = .ok s'' →
      ∃ s', runSerOps s l = .ok s' ∧ runSerOps s' r = .ok s'' := by
  induction l with
  | nil =>
    intro s s'' h
    exact ⟨s, rfl, h⟩
  | cons op t ih =>
    intro s s'' h
    rcases happ : applySerOp s op with ⟨r2, smid⟩
    rcases r2 with e | u
    · rw [List.cons_append] at h
      simp [runSerOps, happ] at h
    · cases u
      rw [List.cons_append] at h
      simp only [runSerOps, happ] at h ⊢
      exact ih smid s'' h

/-- If no operation smuggles the name `time` through `measurement` or
`start_group`, the number of `time` keys contributed by the operations is
the number of `timestamp` calls. -/
theorem count_time_flatMap_opKeys (ops : List SerOp)
    (h : ops.all (fun op => !usesTimeName op) = true) :
    (ops.flatMap opKeys).count "time" = List.countP isTimestampOp ops := by
  induction ops with
  | nil => rfl
  | cons op rest ih =>
    simp only [List.all_cons, Bool.and_eq_true] at h
    have ih' := ih h.2
    cases op with
    | timestamp ts =>
      simp [opKeys, List.count_cons, List.countP_cons, isTimestampOp, ih']
    | measurement name value =>
      have hne : (name == "time") = false := by
        simpa [usesTimeName] using h.1
      simp [opKeys, List.count_cons, List.countP_cons, isTimestampOp, ih', hne]
    | start_group group =>
      have hne : (group == "time") = false := by
        simpa [usesTimeName] using h.1
      simp [opKeys, List.count_cons, List.countP_cons, isTimestampOp, ih', hne]
    | end_group =>
      simp [opKeys, List.countP_cons, isTimestampOp, ih']

/-- Finalizing from the top level succeeds. -/
theorem end_ok_of_top_level (s : ThinEdgeJsonSerializer)
    (hw : s.is_within_group = false) : (s.end').1 = .ok () := by
  rcases hp : s.timestamp_present with _ | _
  · rcases hd : s.default_timestamp with _ | dt
    · simp [ThinEdgeJsonSerializer.end', hw, hp, hd]
    · simp [ThinEdgeJsonSerializer.end', ThinEdgeJsonSerializer.timestamp, hw, hp, hd]
  · simp [ThinEdgeJsonSerializer.end', hw, hp]

/-- Finalizing from the top level either leaves the key trace unchanged, or —
only when no timestamp was recorded — appends exactly one `time` key (the
synthesized default). -/
theorem end_keys_cases (s : ThinEdgeJsonSerializer)
    (hw : s.is_within_group = false) :
    (s.end').2.json.keys = s.json.keys
    ∨ (s.timestamp_present = false
        ∧ (s.end').2.json.keys = s.json.keys ++ ["time"]) := by
  rcases hp : s.timestamp_present with _ | _
  · rcases hd : s.default_timestamp with _ | dt
    · left
      simp [ThinEdgeJsonSerializer.end', hw, hp, hd, JsonWriter.write_close_obj]
    · right
      refine ⟨rfl, ?_⟩
      rcases hn : s.needs_separator with _ | _ <;>
        simp [ThinEdgeJsonSerializer.end', ThinEdgeJsonSerializer.timestamp, hw, hp, hd, hn,
          JsonWriter.write_close_obj, JsonWriter.write_key, JsonWriter.write_str,
          JsonWriter.write_separator]
  · left
    simp [ThinEdgeJsonSerializer.end', hw, hp, JsonWriter.write_close_obj]

/-- A successful `into_string` implies the serializer was at the top level,
and the state it returns is the state `end` produced. -/
theorem into_string_ok_observations (s : ThinEdgeJsonSerializer) (out : String)
    (sf : ThinEdgeJsonSerializer) (hfin : s.into_string = (.ok out, sf)) :
    s.is_within_group = false ∧ sf = (s.end').2 := by
  rcases h' : s.end' with ⟨r, s2⟩
  rcases r with e | u
  · simp [ThinEdgeJsonSerializer.into_string, h'] at hfin
  · cases u
    refine ⟨?_, ?_⟩
    · rcases hw : s.is_within_group with _ | _
      · rfl
      · simp [ThinEdgeJsonSerializer.end', hw] at h'
    · simp [ThinEdgeJsonSerializer.into_string, h'] at hfin
      simpa using hfin.2.symm

/-- Claim C5 counterexample: two `timestamp` calls form a run in which every
operation returns `Ok` and finalize succeeds, yet the produced document
contains TWO time entries — the key trace records `time` twice and the
output text shows both — because `timestamp` never checks
`timestamp_present` before writing. -/
theorem serializer_double_timestamp_counterexample :
    (runSerOps ThinEdgeJsonSerializer.new
        [.timestamp ⟨"T1"⟩, .timestamp ⟨"T2"⟩]).map
      (fun s => ((s.into_string).1, s.json.keys))
      = .ok (.ok "\x7b\"time\":\"T1\",\"time\":\"T2\"\x7d", ["time", "time"]) := by
  decide

/-- Claim C5 as amended: in every all-`Ok` run with successful finalize, each
successful `timestamp` call writes one time entry (so the document contains
at most one time entry PROVIDED `timestamp` is invoked at most once, and
provided no measurement or group is itself named `time`); finalize happens
at the top level, and every `timestamp` call that succeeded was issued with
the serializer at the top level. -/
theorem serializer_single_timestamp_amended
    (d : Option DateTimeFixedOffset) (ops : List SerOp)
    (s sf : ThinEdgeJsonSerializer) (out : String)
    (hrun : runSerOps (ThinEdgeJsonSerializer.new_with_timestamp d) ops = .ok s)
    (hfin : s.into_string = (.ok out, sf))
    (hone : List.countP isTimestampOp ops ≤ 1)
    (hnames : ops.all (fun op => !usesTimeName op) = true) :
    sf.json.keys.count "time" ≤ 1
    ∧ s.is_within_group = false
    ∧ ∀ (l : List SerOp) (ts : DateTimeFixedOffset) (r : List SerOp),
        ops = l ++ .timestamp ts :: r →
        ∃ sl, runSerOps (ThinEdgeJsonSerializer.new_with_timestamp d) l = .ok sl
          ∧ sl.is_within_group = false := by
  have hobs := runSerOps_observations ops _ s hrun
  have hkeys0 : (ThinEdgeJsonSerializer.new_with_timestamp d).json.keys = [] := rfl
  have hkeys : s.json.keys = ops.flatMap opKeys := by
    rw [hobs.1, hkeys0]
    rfl
  have hpres : s.timestamp_present = ops.any isTimestampOp := by
    rw [hobs.2]
    rfl
  have hio := into_string_ok_observations s out sf hfin
  have hcount : s.json.keys.count "time" = List.countP isTimestampOp ops := by
    rw [hkeys]
    exact count_time_flatMap_opKeys ops hnames
  refine ⟨?_, hio.1, ?_⟩
  · rcases end_keys_cases s hio.1 with hsame | ⟨hnp, hplus⟩
    · rw [hio.2, hsame, hcount]
      exact hone
    · have hzero : List.countP isTimestampOp ops = 0 := by
        have hany : ops.any isTimestampOp = false := by
          rw [← hpres]
          exact hnp
        simp only [List.any_eq_false] at hany
        exact List.countP_eq_zero.mpr hany
      rw [hio.2, hplus]
      simp [List.count_append, hcount, hzero]
  · intro l ts r hsplit
    rw [hsplit] at hrun
    rcases runSerOps_append_ok l (.timestamp ts :: r) _ s hrun with ⟨sl, hl, hr⟩
    refine ⟨sl, hl, ?_⟩
    rcases happ : applySerOp sl (.timestamp ts) with ⟨r2, smid⟩
    rcases r2 with e | u
    · simp [runSerOps, happ] at hr
    · rcases hw : sl.is_within_group with _ | _
      · rfl
      · simp [applySerOp, ThinEdgeJsonSerializer.timestamp, hw] at happ

/-- Witness for the amended C5 at a one-timestamp run. -/
theorem serializer_single_timestamp_amended_witness :
    ((ThinEdgeJsonSerializer.new.timestamp ⟨"T"⟩).2.end').2.json.keys.count "time" ≤ 1 := by
  have h := serializer_single_timestamp_amended none [.timestamp ⟨"T"⟩]
    (ThinEdgeJsonSerializer.new.timestamp ⟨"T"⟩).2
    ((ThinEdgeJsonSerializer.new.timestamp ⟨"T"⟩).2.end').2
    "\x7b\"time\":\"T\"\x7d" (by decide) (by decide) (by decide) (by decide)
  exact h.1
